import Mathlib

/-!
Shallow embedding of the MercariSpy filtering/deduplication core
(`src/product_storage.py`, `src/image_filter.py`, `src/main.py`) and proofs
about it.

Modelling conventions, each noted again at the definition it concerns:
* Python timestamps (`datetime.now()`) are integers threaded explicitly as a
  `now` argument; `isoformat`/`fromisoformat` round-tripping is modelled by the
  `TimeStr` type: `TimeStr.iso t` stands for an ISO-8601 string that
  `datetime.fromisoformat` parses to time `t`, and `TimeStr.bad s` for a string
  on which it raises `ValueError`.
* A Python `dict` is an insertion-ordered association list with unique keys;
  theorems that need key uniqueness take it as a `List.Nodup` hypothesis.
* Disk I/O is explicit state (`Disk`) plus a `WriteOutcome` parameter saying
  whether the snapshot write succeeds or raises midway (possibly leaving
  partial bytes at the path, as `open(path, "w")` followed by a failing
  `json.dump` does).
-/

namespace MercariSpy

/-- Json values, as `json.load`/`json.dump` exchange them.  Only the shapes the
storage layer produces and consumes are needed; numbers are integers because
the snapshot stores only integer prices and counts. -/
inductive Json where
  | str (s : String)
  | num (n : Int)
  | obj (fields : List (String × Json))
  | arr (elems : List Json)
  | null

/-- Top-level keys of a JSON object, in order; other JSON shapes have none. -/
def Json.keys : Json → List String
  | .obj fields => fields.map Prod.fst
  | _ => []

/-- Value of a top-level key of a JSON object (`data["k"]` / `data.get("k")`). -/
def Json.lookupKey (k : String) : Json → Option Json
  | .obj fields => fields.lookup k
  | _ => none

/-- A timestamp string as stored in the `added_at` / `last_seen` fields:
`iso t` is a string `datetime.isoformat` produced for time `t` (so
`datetime.fromisoformat` parses it back to `t`); `bad s` is a string on which
`datetime.fromisoformat` raises `ValueError`. -/
inductive TimeStr where
  | iso (t : Int)
  | bad (s : String)
deriving DecidableEq

/-- Rendering of `TimeStr.iso t` back to text, for serialisation; an injective
stand-in for the concrete ISO-8601 syntax, which no claim inspects. -/
def iso_render (t : Int) : String := toString t

/-- The text of a stored timestamp (`iso` strings render, `bad` strings are
kept as they are). -/
def time_render : TimeStr → String
  | .iso t => iso_render t
  | .bad s => s

/-- A candidate product as the scraper hands it to the pipeline
(the `product` dict in `main.process_query`): id, title, price, url,
image_url. -/
structure ProductRecord where
  id : String
  title : String
  price : Int
  url : String
  image_url : String
deriving DecidableEq

/-- One value of `ProductStorage.products`: the dict built in
`ProductStorage.add_product` (src/product_storage.py lines 59-67), with its
seven fields. -/
structure StoredProduct where
  id : String
  title : String
  price : Int
  url : String
  image_url : String
  added_at : TimeStr
  last_seen : TimeStr
deriving DecidableEq

/-- The in-memory map `self.products`: a Python dict, i.e. an insertion-ordered
association list keyed by the product id. -/
abbrev Storage := List (String × StoredProduct)

/-- The entry `add_product` inserts for `product` at time `now`
(`added_at`/`last_seen` both set to `datetime.now().isoformat()`). -/
def mkEntry (p : ProductRecord) (now : Int) : StoredProduct :=
  ⟨p.id, p.title, p.price, p.url, p.image_url, .iso now, .iso now⟩

/-- Embeds `ProductStorage.is_product_known`: the membership test
`str(product_id) in self.products` (ids are already strings here). -/
def is_product_known (store : Storage) (pid : String) : Bool :=
  (List.lookup pid store).isSome

/-- Embeds the in-memory effect of `ProductStorage.add_product`
(src/product_storage.py lines 44-70): no-op returning `False` when the id is
present, otherwise insert the fresh entry (at the end, as dict insertion does)
and return `True`.  The disk write the Python method then performs is modelled
separately by `add_product_full`. -/
def add_product (store : Storage) (p : ProductRecord) (now : Int) : Storage × Bool :=
  if (List.lookup p.id store).isSome then (store, false)
  else (store ++ [(p.id, mkEntry p now)], true)

/-- Keys of a storage map, in order. -/
def storeKeys (store : Storage) : List String := store.map Prod.fst

theorem lookup_append (l₁ l₂ : Storage) (k : String) :
    List.lookup k (l₁ ++ l₂) = (List.lookup k l₁).or (List.lookup k l₂) := by
  induction l₁ with
  | nil => rfl
  | cons a l ih =>
    by_cases h : k = a.1
    · simp [List.lookup, h]
    · simp only [List.cons_append, List.lookup, beq_false_of_ne h]
      exact ih

theorem lookup_singleton (k k' : String) (e : StoredProduct) :
    List.lookup k [(k', e)] = if k = k' then some e else none := by
  by_cases h : k = k'
  · simp [List.lookup, h]
  · simp [List.lookup, beq_false_of_ne h, h]

/-- Keys with `Nodup` count a present key exactly once. -/
theorem countP_key_of_lookup (store : Storage) (k : String) (e : StoredProduct)
    (hnd : (storeKeys store).Nodup) (h : List.lookup k store = some e) :
    store.countP (fun pe => pe.1 == k) = 1 := by
  induction store with
  | nil => simp [List.lookup] at h
  | cons a l ih =>
    simp only [storeKeys, List.map_cons, List.nodup_cons] at hnd
    rw [List.countP_cons]
    by_cases hk : k = a.1
    · subst hk
      have hcount0 : l.countP (fun pe => pe.1 == a.1) = 0 := by
        rw [List.countP_eq_zero]
        intro pe hpe hp
        have h1 : pe.1 = a.1 := by simpa using hp
        exact hnd.1 (h1 ▸ List.mem_map_of_mem Prod.fst hpe)
      rw [hcount0]
      simp
    · have hlk : List.lookup k l = some e := by
        simpa [List.lookup, beq_false_of_ne hk] using h
      simp [ih hnd.2 hlk, beq_false_of_ne (Ne.symm hk)]

theorem lookup_none_countP_zero (store : Storage) (k : String)
    (h : List.lookup k store = none) :
    store.countP (fun pe => pe.1 == k) = 0 := by
  induction store with
  | nil => simp
  | cons a l ih =>
    by_cases hk : k = a.1
    · simp [List.lookup, hk] at h
    · have hlk : List.lookup k l = none := by
        simpa [List.lookup, beq_false_of_ne hk] using h
      rw [List.countP_cons]
      simp [ih hlk, beq_false_of_ne (Ne.symm hk)]

/-- C5.  `add` is idempotent per id: a second `add` of the same record is a
no-op returning `False`; after `add(p)` the store holds exactly one entry for
`p.id`; when the id was absent, that entry's `added_at` is the first call's
time `t₁`, which the second call does not update. -/
theorem add_product_idempotent (store : Storage) (p : ProductRecord) (t₁ t₂ : Int)
    (hnd : (storeKeys store).Nodup) :
    (add_product (add_product store p t₁).1 p t₂).1 = (add_product store p t₁).1
  ∧ (add_product (add_product store p t₁).1 p t₂).2 = false
  ∧ ((add_product store p t₁).1.countP (fun pe => pe.1 == p.id)) = 1
  ∧ (List.lookup p.id store = none →
      List.lookup p.id (add_product store p t₁).1 = some (mkEntry p t₁)) := by
  cases hl : List.lookup p.id store with
  | some e =>
    have hs : (List.lookup p.id store).isSome = true := by simp [hl]
    refine ⟨?_, ?_, ?_, ?_⟩
    · simp [add_product, hs]
    · simp [add_product, hs]
    · simpa [add_product, hs] using countP_key_of_lookup store p.id e hnd hl
    · intro hnone
      simp [hl] at hnone
  | none =>
    have hs : (List.lookup p.id store).isSome = false := by simp [hl]
    have hlook : List.lookup p.id (store ++ [(p.id, mkEntry p t₁)]) = some (mkEntry p t₁) := by
      rw [lookup_append, hl, lookup_singleton]
      simp
    refine ⟨?_, ?_, ?_, ?_⟩
    · simp [add_product, hs, hlook]
    · simp [add_product, hs, hlook]
    · rw [add_product]
      rw [hs]
      simp only [Bool.false_eq_true, if_false, List.countP_append]
      rw [lookup_none_countP_zero store p.id hl]
      simp
    · intro _
      simpa [add_product, hs] using hlook

/-- Witness for C5 at a concrete input: a fresh store, a product added twice. -/
theorem add_product_idempotent_witness :
    (add_product (add_product [] ⟨"m1", "hat", 500, "u", "img"⟩ 3).1
        ⟨"m1", "hat", 500, "u", "img"⟩ 9).1
      = (add_product [] ⟨"m1", "hat", 500, "u", "img"⟩ 3).1
  ∧ List.lookup "m1" (add_product [] ⟨"m1", "hat", 500, "u", "img"⟩ 3).1
      = some (mkEntry ⟨"m1", "hat", 500, "u", "img"⟩ 3) := by
  have h := add_product_idempotent [] ⟨"m1", "hat", 500, "u", "img"⟩ 3 9 (by simp [storeKeys])
  exact ⟨h.1, h.2.2.2 rfl⟩

/-- Outcome of the image-filter call `self.image_filter.filter_background(url)`
as seen from `process_query`: it returned a Bool, or it raised (the pipeline
catches the exception and falls through to emitting the product). -/
inductive FilterOutcome where
  | ok (b : Bool)
  | err
deriving DecidableEq

/-- Whether the per-record filter step of `process_query` lets a record
through: always when filtering is disabled (`filter_background` is not even
called); when enabled, unless the call returned `False` (an exception is
caught and treated as a pass, src/main.py lines 110-114). -/
def image_acceptable (enabled : Bool) (f : ProductRecord → FilterOutcome) (p : ProductRecord) :
    Bool :=
  match enabled, f p with
  | false, _ => true
  | true, .ok false => false
  | true, .ok true => true
  | true, .err => true

/-- Embeds the per-query candidate loop of `MercariMonitor.process_query`
(src/main.py lines 96-117): skip a known id; when filtering is enabled, skip a
record whose filter call returned `False` (a raised exception passes); emit
everything else and register it at once via `add_product`.  Returns
(`new_products`, final storage).  The filter call's outcome is the
environment, given as `f`; the disk write inside `add_product` is assumed to
succeed (its failure aborts the whole query, emitting nothing — disk effects
are modelled by `add_product_full`). -/
def process_query (enabled : Bool) (f : ProductRecord → FilterOutcome) (now : Int) :
    Storage → List ProductRecord → List ProductRecord × Storage
  | store, [] => ([], store)
  | store, p :: rest =>
    if is_product_known store p.id then process_query enabled f now store rest
    else if image_acceptable enabled f p = false then process_query enabled f now store rest
    else
      let next := process_query enabled f now (add_product store p now).1 rest
      (p :: next.1, next.2)

theorem process_query_cons_of_known (enabled : Bool) (f : ProductRecord → FilterOutcome)
    (now : Int) (store : Storage) (p : ProductRecord) (rest : List ProductRecord)
    (h : is_product_known store p.id = true) :
    process_query enabled f now store (p :: rest) = process_query enabled f now store rest := by
  conv_lhs => rw [process_query]
  simp [h]

theorem process_query_cons_of_skip (enabled : Bool) (f : ProductRecord → FilterOutcome)
    (now : Int) (store : Storage) (p : ProductRecord) (rest : List ProductRecord)
    (h1 : is_product_known store p.id = false) (h2 : image_acceptable enabled f p = false) :
    process_query enabled f now store (p :: rest) = process_query enabled f now store rest := by
  conv_lhs => rw [process_query]
  simp [h1, h2]

theorem process_query_cons_of_emit (enabled : Bool) (f : ProductRecord → FilterOutcome)
    (now : Int) (store : Storage) (p : ProductRecord) (rest : List ProductRecord)
    (h1 : is_product_known store p.id = false) (h2 : image_acceptable enabled f p = true) :
    process_query enabled f now store (p :: rest)
      = (p :: (process_query enabled f now (add_product store p now).1 rest).1,
         (process_query enabled f now (add_product store p now).1 rest).2) := by
  conv_lhs => rw [process_query]
  simp [h1, h2]

theorem is_product_known_add_of_ne (store : Storage) (p : ProductRecord) (now : Int)
    (pid : String) (h : pid ≠ p.id) :
    is_product_known (add_product store p now).1 pid = is_product_known store pid := by
  unfold add_product
  by_cases hk : (List.lookup p.id store).isSome
  · simp [hk]
  · simp only [hk, if_false, Bool.false_eq_true]
    unfold is_product_known
    rw [lookup_append, lookup_singleton]
    simp [h]

theorem lookup_add_of_known (store : Storage) (p : ProductRecord) (now : Int)
    (pid : String) (h : is_product_known store pid = true) :
    List.lookup pid (add_product store p now).1 = List.lookup pid store := by
  unfold add_product
  by_cases hk : (List.lookup p.id store).isSome
  · simp [hk]
  · simp only [hk, if_false, Bool.false_eq_true]
    rw [lookup_append]
    unfold is_product_known at h
    cases hl : List.lookup pid store with
    | some e => simp
    | none => rw [hl] at h; simp at h

theorem is_product_known_add_self (store : Storage) (p : ProductRecord) (now : Int) :
    is_product_known (add_product store p now).1 p.id = true := by
  unfold add_product
  cases hk : (List.lookup p.id store).isSome with
  | false =>
    simp only [Bool.false_eq_true, if_false]
    unfold is_product_known
    rw [lookup_append, lookup_singleton]
    cases List.lookup p.id store <;> simp
  | true => simp [is_product_known, hk]

theorem process_query_known_mono (enabled : Bool) (f : ProductRecord → FilterOutcome)
    (now : Int) (records : List ProductRecord) (store : Storage) (pid : String)
    (h : is_product_known store pid = true) :
    is_product_known (process_query enabled f now store records).2 pid = true := by
  induction records generalizing store with
  | nil => exact h
  | cons p rest ih =>
    cases h1 : is_product_known store p.id with
    | true =>
      rw [process_query_cons_of_known enabled f now store p rest h1]
      exact ih store h
    | false =>
      cases h2 : image_acceptable enabled f p with
      | false =>
        rw [process_query_cons_of_skip enabled f now store p rest h1 h2]
        exact ih store h
      | true =>
        rw [process_query_cons_of_emit enabled f now store p rest h1 h2]
        refine ih (add_product store p now).1 ?_
        by_cases hp : pid = p.id
        · subst hp
          exact is_product_known_add_self store p now
        · rw [is_product_known_add_of_ne store p now pid hp]
          exact h

theorem process_query_lookup_preserved (enabled : Bool) (f : ProductRecord → FilterOutcome)
    (now : Int) (records : List ProductRecord) (store : Storage) (pid : String)
    (h : is_product_known store pid = true) :
    List.lookup pid (process_query enabled f now store records).2 = List.lookup pid store := by
  induction records generalizing store with
  | nil => rfl
  | cons p rest ih =>
    cases h1 : is_product_known store p.id with
    | true =>
      rw [process_query_cons_of_known enabled f now store p rest h1]
      exact ih store h
    | false =>
      cases h2 : image_acceptable enabled f p with
      | false =>
        rw [process_query_cons_of_skip enabled f now store p rest h1 h2]
        exact ih store h
      | true =>
        rw [process_query_cons_of_emit enabled f now store p rest h1 h2]
        have hkeep : is_product_known (add_product store p now).1 pid = true := by
          by_cases hp : pid = p.id
          · subst hp
            exact is_product_known_add_self store p now
          · rw [is_product_known_add_of_ne store p now pid hp]
            exact h
        rw [ih (add_product store p now).1 hkeep]
        exact lookup_add_of_known store p now pid h

theorem process_query_out_eq (enabled : Bool) (f : ProductRecord → FilterOutcome)
    (now : Int) (records : List ProductRecord) (store : Storage)
    (hids : (records.map ProductRecord.id).Nodup) :
    (process_query enabled f now store records).1
      = records.filter
          (fun p => !is_product_known store p.id && image_acceptable enabled f p) := by
  induction records generalizing store with
  | nil => rfl
  | cons p rest ih =>
    simp only [List.map_cons, List.nodup_cons] at hids
    cases h1 : is_product_known store p.id with
    | true =>
      rw [process_query_cons_of_known enabled f now store p rest h1]
      rw [List.filter_cons]
      simp only [h1, Bool.not_true, Bool.false_and, Bool.false_eq_true, if_false]
      exact ih store hids.2
    | false =>
      cases h2 : image_acceptable enabled f p with
      | false =>
        rw [process_query_cons_of_skip enabled f now store p rest h1 h2]
        rw [List.filter_cons]
        simp only [h1, h2, Bool.not_false, Bool.true_and, Bool.false_eq_true, if_false]
        exact ih store hids.2
      | true =>
        rw [process_query_cons_of_emit enabled f now store p rest h1 h2]
        rw [List.filter_cons]
        simp only [h1, h2, Bool.not_false, Bool.true_and, if_true]
        rw [ih (add_product store p now).1 hids.2]
        congr 1
        refine List.filter_congr ?_
        intro q hq
        have hne : q.id ≠ p.id := by
          intro hqe
          exact hids.1 (hqe ▸ List.mem_map_of_mem ProductRecord.id hq)
        rw [is_product_known_add_of_ne store p now q.id hne]

theorem process_query_emitted_known (enabled : Bool) (f : ProductRecord → FilterOutcome)
    (now : Int) (records : List ProductRecord) (store : Storage) :
    ∀ p ∈ (process_query enabled f now store records).1,
      is_product_known (process_query enabled f now store records).2 p.id = true := by
  induction records generalizing store with
  | nil => intro p hp; cases hp
  | cons q rest ih =>
    intro p hp
    cases h1 : is_product_known store q.id with
    | true =>
      rw [process_query_cons_of_known enabled f now store q rest h1] at hp ⊢
      exact ih store p hp
    | false =>
      cases h2 : image_acceptable enabled f q with
      | false =>
        rw [process_query_cons_of_skip enabled f now store q rest h1 h2] at hp ⊢
        exact ih store p hp
      | true =>
        rw [process_query_cons_of_emit enabled f now store q rest h1 h2] at hp ⊢
        have hp' : p ∈ q :: (process_query enabled f now (add_product store q now).1 rest).1 := hp
        rcases List.mem_cons.mp hp' with hq | hq
        · subst hq
          exact process_query_known_mono enabled f now rest (add_product store p now).1 p.id
            (is_product_known_add_self store p now)
        · exact ih (add_product store q now).1 p hq

/-- C1.  The per-query pipeline emits exactly the candidates that are novel
(with distinct ids per the scraper contract of spec §6, novelty at examination
time equals novelty against the starting store) and image-acceptable, in
input order; every emitted record is registered by the end of the call; an id
already known keeps its stored entry — `added_at` included — untouched. -/
theorem process_query_spec (enabled : Bool) (f : ProductRecord → FilterOutcome)
    (now : Int) (store : Storage) (records : List ProductRecord)
    (hids : (records.map ProductRecord.id).Nodup) :
    (process_query enabled f now store records).1
      = records.filter
          (fun p => !is_product_known store p.id && image_acceptable enabled f p)
  ∧ (∀ p ∈ (process_query enabled f now store records).1,
      is_product_known (process_query enabled f now store records).2 p.id = true)
  ∧ (∀ pid, is_product_known store pid = true →
      List.lookup pid (process_query enabled f now store records).2 = List.lookup pid store) :=
  ⟨process_query_out_eq enabled f now records store hids,
   process_query_emitted_known enabled f now records store,
   fun pid h => process_query_lookup_preserved enabled f now records store pid h⟩

/-- Witness for C1 at the spec's own example: candidates `[A, B, C]` with `B`
already known give output `[A, C]`, both get registered, and `B`'s stored
entry (its `added_at` in particular) is unchanged. -/
theorem process_query_spec_witness :
    (process_query false (fun _ => .err) 5
        [("B", mkEntry ⟨"B", "b", 2, "ub", "ib"⟩ 1)]
        [⟨"A", "a", 1, "ua", "ia"⟩, ⟨"B", "b", 2, "ub", "ib"⟩, ⟨"C", "c", 3, "uc", "ic"⟩]).1
      = [⟨"A", "a", 1, "ua", "ia"⟩, ⟨"C", "c", 3, "uc", "ic"⟩]
  ∧ List.lookup "B"
      (process_query false (fun _ => .err) 5
        [("B", mkEntry ⟨"B", "b", 2, "ub", "ib"⟩ 1)]
        [⟨"A", "a", 1, "ua", "ia"⟩, ⟨"B", "b", 2, "ub", "ib"⟩, ⟨"C", "c", 3, "uc", "ic"⟩]).2
      = some (mkEntry ⟨"B", "b", 2, "ub", "ib"⟩ 1) := by
  have h := process_query_spec false (fun _ => .err) 5
    [("B", mkEntry ⟨"B", "b", 2, "ub", "ib"⟩ 1)]
    [⟨"A", "a", 1, "ua", "ia"⟩, ⟨"B", "b", 2, "ub", "ib"⟩, ⟨"C", "c", 3, "uc", "ic"⟩]
    (by decide)
  refine ⟨?_, ?_⟩
  · rw [h.1]
    decide
  · rw [h.2.2 "B" (by decide)]
    decide

/-- Seconds in a day: `timedelta(days=max_days)` over integer-second
timestamps. -/
def day_seconds : Int := 86400

/-- Whether `cleanup_old_products` marks a stored entry for removal at a given
cutoff: `datetime.fromisoformat(product['added_at']) < cutoff`, and an entry
whose `added_at` fails to parse counts as old too (the `except ValueError`
branch, src/product_storage.py lines 136-138). -/
def is_expired (e : StoredProduct) (cutoff : Int) : Bool :=
  match e.added_at with
  | .iso t => decide (t < cutoff)
  | .bad _ => true

/-- Embeds the in-memory effect of `ProductStorage.cleanup_old_products`
(src/product_storage.py lines 113-149): first collect `products_to_remove`
(ids of entries older than `now - timedelta(days=max_days)`, malformed dates
included), then delete them one by one, returning the new map and the count.
The `save_to_file` call it makes when the count is positive is modelled by
`cleanup_old_products_full`. -/
def cleanup_old_products (store : Storage) (max_days now : Int) : Storage × Nat :=
  let cutoff := now - max_days * day_seconds
  let to_remove := (store.filter (fun pe => is_expired pe.2 cutoff)).map Prod.fst
  (to_remove.foldl (fun s pid => s.filter (fun pe => !(pe.1 == pid))) store,
   to_remove.length)

theorem foldl_delete_eq_filter (ks : List String) (store : Storage) :
    ks.foldl (fun s pid => s.filter (fun pe => !(pe.1 == pid))) store
      = store.filter (fun pe => !(decide (pe.1 ∈ ks))) := by
  induction ks generalizing store with
  | nil => simp
  | cons k ks ih =>
    rw [List.foldl_cons, ih, List.filter_filter]
    refine List.filter_congr ?_
    intro pe _
    by_cases h1 : pe.1 = k <;> by_cases h2 : pe.1 ∈ ks <;> simp [h1, h2]

theorem eq_of_mem_of_nodup_keys (store : Storage) (pe qe : String × StoredProduct)
    (hnd : (storeKeys store).Nodup) (h1 : pe ∈ store) (h2 : qe ∈ store)
    (hk : pe.1 = qe.1) : pe = qe := by
  induction store with
  | nil => cases h1
  | cons a l ih =>
    simp only [storeKeys, List.map_cons, List.nodup_cons] at hnd
    rcases List.mem_cons.mp h1 with h1 | h1 <;> rcases List.mem_cons.mp h2 with h2 | h2
    · rw [h1, h2]
    · rw [h1] at hk
      exact absurd (by rw [hk]; exact List.mem_map_of_mem Prod.fst h2) hnd.1
    · rw [h2] at hk
      exact absurd (by rw [← hk]; exact List.mem_map_of_mem Prod.fst h1) hnd.1
    · exact ih hnd.2 h1 h2

theorem mem_removal_keys_iff (store : Storage) (P : String × StoredProduct → Bool)
    (pe : String × StoredProduct) (hnd : (storeKeys store).Nodup) (hpe : pe ∈ store) :
    pe.1 ∈ (store.filter P).map Prod.fst ↔ P pe = true := by
  constructor
  · intro h
    obtain ⟨qe, hq, hqk⟩ := List.mem_map.mp h
    obtain ⟨hqs, hqP⟩ := List.mem_filter.mp hq
    have : qe = pe := eq_of_mem_of_nodup_keys store qe pe hnd hqs hpe hqk
    exact this ▸ hqP
  · intro h
    exact List.mem_map_of_mem Prod.fst (List.mem_filter.mpr ⟨hpe, h⟩)

theorem cleanup_old_products_fst (store : Storage) (max_days now : Int) :
    (cleanup_old_products store max_days now).1
      = ((store.filter (fun pe => is_expired pe.2 (now - max_days * day_seconds))).map
          Prod.fst).foldl (fun s pid => s.filter (fun pe => !(pe.1 == pid))) store := rfl

theorem cleanup_old_products_snd (store : Storage) (max_days now : Int) :
    (cleanup_old_products store max_days now).2
      = ((store.filter (fun pe => is_expired pe.2 (now - max_days * day_seconds))).map
          Prod.fst).length := rfl

/-- With unique keys, the two-pass removal of `cleanup_old_products` is the
one-pass filter keeping the unexpired entries. -/
theorem cleanup_fst_eq_filter (store : Storage) (max_days now : Int)
    (hnd : (storeKeys store).Nodup) :
    (cleanup_old_products store max_days now).1
      = store.filter (fun pe => !(is_expired pe.2 (now - max_days * day_seconds))) := by
  rw [cleanup_old_products_fst]
  rw [foldl_delete_eq_filter]
  refine List.filter_congr ?_
  intro pe hpe
  rw [show (decide (pe.1 ∈ ((store.filter
      (fun pe => is_expired pe.2 (now - max_days * day_seconds))).map Prod.fst)) : Bool)
      = is_expired pe.2 (now - max_days * day_seconds) from ?_]
  by_cases h : pe.1 ∈ (store.filter
      (fun pe => is_expired pe.2 (now - max_days * day_seconds))).map Prod.fst
  · rw [decide_eq_true h,
      (mem_removal_keys_iff store _ pe hnd hpe).mp h]
  · rw [decide_eq_false h]
    by_cases hP : is_expired pe.2 (now - max_days * day_seconds) = true
    · exact absurd ((mem_removal_keys_iff store _ pe hnd hpe).mpr hP) h
    · simp [hP]

theorem cleanup_snd_eq_countP (store : Storage) (max_days now : Int) :
    (cleanup_old_products store max_days now).2
      = store.countP (fun pe => is_expired pe.2 (now - max_days * day_seconds)) := by
  rw [cleanup_old_products_snd]
  rw [List.length_map, ← List.countP_eq_length_filter]

/-- C6.  `cleanupExpired` removes every (parseable) entry strictly older than
`maxAge = max_days` days, retains every entry whose age is at most `maxAge`,
and returns exactly the number of entries removed. -/
theorem cleanup_old_products_spec (store : Storage) (max_days now : Int)
    (hnd : (storeKeys store).Nodup) :
    (∀ pid e t, (pid, e) ∈ store → e.added_at = .iso t →
      now - t > max_days * day_seconds →
      (pid, e) ∉ (cleanup_old_products store max_days now).1)
  ∧ (∀ pid e t, (pid, e) ∈ store → e.added_at = .iso t →
      now - t ≤ max_days * day_seconds →
      (pid, e) ∈ (cleanup_old_products store max_days now).1)
  ∧ (cleanup_old_products store max_days now).2
      = store.countP (fun pe => is_expired pe.2 (now - max_days * day_seconds))
  ∧ (cleanup_old_products store max_days now).1.length
      + (cleanup_old_products store max_days now).2 = store.length := by
  rw [cleanup_fst_eq_filter store max_days now hnd, cleanup_snd_eq_countP store max_days now]
  refine ⟨?_, ?_, rfl, ?_⟩
  · intro pid e t _ hiso hold hmem
    have := (List.mem_filter.mp hmem).2
    rw [is_expired, hiso] at this
    simp only [Bool.not_eq_eq_eq_not, Bool.not_true, decide_eq_false_iff_not] at this
    omega
  · intro pid e t hmem hiso hyoung
    refine List.mem_filter.mpr ⟨hmem, ?_⟩
    rw [is_expired, hiso]
    simp only [Bool.not_eq_eq_eq_not, Bool.not_true, decide_eq_false_iff_not]
    omega
  · rw [← List.countP_eq_length_filter, List.length_eq_countP_add_countP
      (fun pe => is_expired pe.2 (now - max_days * day_seconds))]
    rw [Nat.add_comm]
    congr 1
    refine List.countP_congr ?_
    intro pe _
    simp

/-- Witness for C6: with `maxAge = 7` days, an entry added 8 days ago is
removed, one added 6 days ago is retained, and the returned count is 1. -/
theorem cleanup_old_products_spec_witness :
    ("old", mkEntry ⟨"old", "o", 1, "u", "i"⟩ (-8 * 86400))
        ∉ (cleanup_old_products
            [("old", mkEntry ⟨"old", "o", 1, "u", "i"⟩ (-8 * 86400)),
             ("new", mkEntry ⟨"new", "n", 2, "u", "i"⟩ (-6 * 86400))] 7 0).1
  ∧ ("new", mkEntry ⟨"new", "n", 2, "u", "i"⟩ (-6 * 86400))
        ∈ (cleanup_old_products
            [("old", mkEntry ⟨"old", "o", 1, "u", "i"⟩ (-8 * 86400)),
             ("new", mkEntry ⟨"new", "n", 2, "u", "i"⟩ (-6 * 86400))] 7 0).1
  ∧ (cleanup_old_products
        [("old", mkEntry ⟨"old", "o", 1, "u", "i"⟩ (-8 * 86400)),
         ("new", mkEntry ⟨"new", "n", 2, "u", "i"⟩ (-6 * 86400))] 7 0).2 = 1 := by
  have h := cleanup_old_products_spec
    [("old", mkEntry ⟨"old", "o", 1, "u", "i"⟩ (-8 * 86400)),
     ("new", mkEntry ⟨"new", "n", 2, "u", "i"⟩ (-6 * 86400))] 7 0 (by decide)
  refine ⟨?_, ?_, ?_⟩
  · exact h.1 "old" (mkEntry ⟨"old", "o", 1, "u", "i"⟩ (-8 * 86400)) (-8 * 86400)
      (by decide) rfl (by decide)
  · exact h.2.1 "new" (mkEntry ⟨"new", "n", 2, "u", "i"⟩ (-6 * 86400)) (-6 * 86400)
      (by decide) rfl (by decide)
  · rw [h.2.2.1]
    decide

/-- C10.  `cleanup_old_products` removes — and counts in its returned total —
every entry whose `added_at` does not parse, whatever `max_days` is; after a
cleanup every remaining entry has a parseable `added_at`. -/
theorem cleanup_removes_malformed (store : Storage) (max_days now : Int)
    (hnd : (storeKeys store).Nodup) :
    (∀ pid e s, (pid, e) ∈ store → e.added_at = .bad s →
      (pid, e) ∉ (cleanup_old_products store max_days now).1)
  ∧ (∀ pid e, (pid, e) ∈ (cleanup_old_products store max_days now).1 →
      ∃ t, e.added_at = .iso t)
  ∧ store.countP (fun pe => match pe.2.added_at with | .bad _ => true | .iso _ => false)
      ≤ (cleanup_old_products store max_days now).2 := by
  rw [cleanup_fst_eq_filter store max_days now hnd, cleanup_snd_eq_countP store max_days now]
  refine ⟨?_, ?_, ?_⟩
  · intro pid e s _ hbad hmem
    have := (List.mem_filter.mp hmem).2
    rw [is_expired, hbad] at this
    simp at this
  · intro pid e hmem
    have := (List.mem_filter.mp hmem).2
    cases he : e.added_at with
    | iso t => exact ⟨t, rfl⟩
    | bad s =>
      rw [is_expired, he] at this
      simp at this
  · refine List.countP_mono_left ?_
    intro pe _ h
    rw [is_expired]
    cases hb : pe.2.added_at with
    | iso t => rw [hb] at h; simp at h
    | bad s => rfl

/-- Witness for C10: an entry whose `added_at` is unparseable is removed and
counted even though it is newer than the cutoff (here `now = 0`,
`max_days = 7`). -/
theorem cleanup_removes_malformed_witness :
    ("bad", ⟨"bad", "b", 1, "u", "i", .bad "not-a-date", .bad "not-a-date"⟩)
        ∉ (cleanup_old_products
            [("bad", ⟨"bad", "b", 1, "u", "i", .bad "not-a-date", .bad "not-a-date"⟩)] 7 0).1
  ∧ (cleanup_old_products
        [("bad", ⟨"bad", "b", 1, "u", "i", .bad "not-a-date", .bad "not-a-date"⟩)] 7 0).2
      = 1 := by
  have h := cleanup_removes_malformed
    [("bad", ⟨"bad", "b", 1, "u", "i", .bad "not-a-date", .bad "not-a-date"⟩)] 7 0 (by decide)
  refine ⟨?_, ?_⟩
  · exact h.1 "bad" ⟨"bad", "b", 1, "u", "i", .bad "not-a-date", .bad "not-a-date"⟩
      "not-a-date" (by decide) rfl
  · have h2 := h.2.2
    rw [cleanup_snd_eq_countP] at h2 ⊢
    decide

/-- Contents of one disk file: decodable JSON text, or bytes that do not parse
(e.g. the prefix a `json.dump` interrupted mid-write leaves behind). -/
inductive FileData where
  | json (j : Json)
  | corrupt

/-- The two paths `save_to_file` touches: the snapshot at `self.storage_path`
and the backup at `self.storage_path.with_suffix('.backup.json')`.  `none`
means the path does not exist. -/
structure Disk where
  orig : Option FileData
  backup : Option FileData

/-- Outcome of the snapshot write step (`open(..., 'w')` + `json.dump`): it
completes, or it raises after leaving `residue` at the path (`none` when the
file was never created, `some .corrupt` for a partial write). -/
inductive WriteOutcome where
  | ok
  | fail (residue : Option FileData)

/-- JSON object `save_to_file` serialises for one stored product: the dict of
src/product_storage.py lines 59-67, all seven fields. -/
def entry_json (e : StoredProduct) : Json :=
  .obj [("id", .str e.id), ("title", .str e.title), ("price", .num e.price),
        ("url", .str e.url), ("image_url", .str e.image_url),
        ("added_at", .str (time_render e.added_at)),
        ("last_seen", .str (time_render e.last_seen))]

/-- The `data` dict `save_to_file` writes (src/product_storage.py lines
154-158): `products`, then `last_updated = datetime.now().isoformat()`, then
`total_count = len(self.products)` — all three at top level. -/
def snapshot_json (store : Storage) (now : Int) : Json :=
  .obj [("products", .obj (store.map (fun pe => (pe.1, entry_json pe.2)))),
        ("last_updated", .str (iso_render now)),
        ("total_count", .num store.length)]

/-- Embeds `ProductStorage.save_to_file` (src/product_storage.py lines
151-181) as a transition on the two disk paths.  Steps, as in the code: if
the snapshot exists, rename it to the backup path (an atomic rename that
replaces any stale backup); write `snap`; on success delete the backup; on a
write failure the `except` block renames the backup over the snapshot path
when the backup exists (restoring the pre-call contents, `Path.rename`
overwriting any partial file) and re-raises.  `Except.error d` is the raised
exception together with the disk state `d` it leaves behind. -/
def save_to_file (disk : Disk) (snap : Json) (w : WriteOutcome) : Except Disk Disk :=
  let d1 : Disk := match disk.orig with
    | some c => { orig := none, backup := some c }
    | none => disk
  match w with
  | .ok => .ok { orig := some (.json snap), backup := none }
  | .fail residue =>
    match d1.backup with
    | some b => .error { orig := some b, backup := none }
    | none => .error { orig := residue, backup := none }

/-- In-memory map plus the disk it is persisted to: the observable state of a
`ProductStorage` instance. -/
structure StoreState where
  products : Storage
  disk : Disk

/-- Embeds `ProductStorage.add_product` with its disk effect: the no-op path
returns `False` touching nothing; the insert path writes the whole snapshot
via `save_to_file` before returning `True`, and a raised save error
propagates (with the map already updated). -/
def add_product_full (st : StoreState) (p : ProductRecord) (now : Int) (w : WriteOutcome) :
    Except StoreState (StoreState × Bool) :=
  if (List.lookup p.id st.products).isSome then .ok (st, false)
  else
    match save_to_file st.disk (snapshot_json (st.products ++ [(p.id, mkEntry p now)]) now) w with
    | .ok d' => .ok (⟨st.products ++ [(p.id, mkEntry p now)], d'⟩, true)
    | .error d' => .error ⟨st.products ++ [(p.id, mkEntry p now)], d'⟩

/-- Embeds `ProductStorage.cleanup_old_products` with its disk effect: the map
sweep always runs; `save_to_file` runs only when `removed_count > 0`. -/
def cleanup_old_products_full (st : StoreState) (max_days now : Int) (w : WriteOutcome) :
    Except StoreState (StoreState × Nat) :=
  if (cleanup_old_products st.products max_days now).2 > 0 then
    match save_to_file st.disk
        (snapshot_json (cleanup_old_products st.products max_days now).1 now) w with
    | .ok d' => .ok (⟨(cleanup_old_products st.products max_days now).1, d'⟩,
        (cleanup_old_products st.products max_days now).2)
    | .error d' => .error ⟨(cleanup_old_products st.products max_days now).1, d'⟩
  else .ok (⟨(cleanup_old_products st.products max_days now).1, st.disk⟩,
      (cleanup_old_products st.products max_days now).2)

/-- Counterexample to C2 as stated: a single successful `add` of a novel
product changes the snapshot file (the claim says neither `add` nor
`cleanupExpired` ever writes it). -/
theorem add_product_touches_disk_cex :
    (match add_product_full ⟨[], ⟨none, none⟩⟩ ⟨"1", "t", 1, "u", "img"⟩ 0 .ok with
      | .ok (st, _) => st.disk.orig
      | .error st => st.disk.orig) ≠ (⟨[], ⟨none, none⟩⟩ : StoreState).disk.orig := by
  intro h
  exact Option.noConfusion h

/-- C2 amended.  Disk effects of `add` and `cleanupExpired`: a no-op `add`
(known id) touches neither memory nor disk; an insertion writes the full new
snapshot; a cleanup that removed nothing leaves the disk untouched; a cleanup
that removed at least one entry writes the full new snapshot. -/
theorem storage_disk_effects (st : StoreState) (p : ProductRecord) (max_days now : Int)
    (w : WriteOutcome) :
    ((List.lookup p.id st.products).isSome = true →
      add_product_full st p now w = .ok (st, false))
  ∧ (List.lookup p.id st.products = none →
      add_product_full st p now .ok
        = .ok (⟨st.products ++ [(p.id, mkEntry p now)],
            ⟨some (.json (snapshot_json (st.products ++ [(p.id, mkEntry p now)]) now)),
             none⟩⟩, true))
  ∧ ((cleanup_old_products st.products max_days now).2 = 0 →
      cleanup_old_products_full st max_days now w
        = .ok (⟨(cleanup_old_products st.products max_days now).1, st.disk⟩, 0))
  ∧ ((cleanup_old_products st.products max_days now).2 > 0 →
      cleanup_old_products_full st max_days now .ok
        = .ok (⟨(cleanup_old_products st.products max_days now).1,
            ⟨some (.json (snapshot_json (cleanup_old_products st.products max_days now).1 now)),
             none⟩⟩, (cleanup_old_products st.products max_days now).2)) := by
  refine ⟨?_, ?_, ?_, ?_⟩
  · intro h
    unfold add_product_full
    rw [h]
    rfl
  · intro h
    unfold add_product_full
    rw [h]
    simp only [Option.isSome_none, Bool.false_eq_true, if_false]
    unfold save_to_file
    cases st.disk.orig <;> rfl
  · intro h
    unfold cleanup_old_products_full
    rw [h]
    rfl
  · intro h
    unfold cleanup_old_products_full
    rw [if_pos h]
    unfold save_to_file
    cases st.disk.orig <;> rfl

/-- Witness for the amended C2 at concrete inputs: a known id leaves the state
alone, and a cleanup that removes one expired entry rewrites the snapshot. -/
theorem storage_disk_effects_witness :
    add_product_full
        ⟨[("1", mkEntry ⟨"1", "t", 1, "u", "img"⟩ 0)], ⟨none, none⟩⟩
        ⟨"1", "t", 1, "u", "img"⟩ 9 (.fail none)
      = .ok (⟨[("1", mkEntry ⟨"1", "t", 1, "u", "img"⟩ 0)], ⟨none, none⟩⟩, false)
  ∧ cleanup_old_products_full
        ⟨[("old", mkEntry ⟨"old", "o", 1, "u", "i"⟩ (-8 * 86400))], ⟨none, none⟩⟩ 7 0 .ok
      = .ok (⟨[], ⟨some (.json (snapshot_json [] 0)), none⟩⟩, 1) := by
  constructor
  · exact (storage_disk_effects
      ⟨[("1", mkEntry ⟨"1", "t", 1, "u", "img"⟩ 0)], ⟨none, none⟩⟩
      ⟨"1", "t", 1, "u", "img"⟩ 7 0 (.fail none)).1 (by decide)
  · exact (storage_disk_effects
      ⟨[("old", mkEntry ⟨"old", "o", 1, "u", "i"⟩ (-8 * 86400))], ⟨none, none⟩⟩
      ⟨"x", "x", 0, "x", "x"⟩ 7 0 .ok).2.2.2 (by decide)

/-- Counterexample to C3 as stated: when no snapshot file existed before the
call, a failed write leaves a partial file at the path, not the (absent)
pre-call contents — there is no backup to restore from. -/
theorem save_to_file_no_restore_cex :
    save_to_file ⟨none, none⟩ (Json.obj []) (.fail (some .corrupt))
      = .error ⟨some .corrupt, none⟩
  ∧ (⟨none, none⟩ : Disk).orig ≠ some FileData.corrupt := by
  constructor
  · rfl
  · intro h
    exact Option.noConfusion h

/-- C3 amended.  When a snapshot file existed before the call, a failed
`save()` propagates the error and the backup-rename protocol leaves the
original path holding exactly its pre-call contents (and no backup file). -/
theorem save_to_file_rollback (disk : Disk) (snap : Json) (residue : Option FileData)
    (c : FileData) (h : disk.orig = some c) :
    save_to_file disk snap (.fail residue) = .error ⟨some c, none⟩ := by
  unfold save_to_file
  rw [h]

/-- Witness for the amended C3: a failed save over an existing snapshot `s`
restores `s` exactly, even with a stale backup lying around and a partial
write left behind. -/
theorem save_to_file_rollback_witness :
    save_to_file ⟨some (.json (Json.str "good")), some .corrupt⟩ (Json.str "new")
        (.fail (some .corrupt))
      = .error ⟨some (.json (Json.str "good")), none⟩ :=
  save_to_file_rollback ⟨some (.json (Json.str "good")), some .corrupt⟩ (Json.str "new")
    (some .corrupt) (.json (Json.str "good")) rfl

/-- Counterexample to C4 as stated: the snapshot has no top-level `metadata`
object (`last_updated` and `total_count` sit at top level), and a product
entry does not have exactly the six claimed fields (it also stores
`last_seen`). -/
theorem snapshot_format_cex :
    Json.lookupKey "metadata" (snapshot_json [] 0) = none
  ∧ (entry_json (mkEntry ⟨"1", "t", 1, "u", "img"⟩ 0)).keys
      ≠ ["id", "title", "price", "url", "image_url", "added_at"] := by
  constructor
  · rfl
  · decide

/-- C4 amended.  A successful `save()` writes a JSON object whose top-level
keys are exactly `products`, `last_updated` (ISO timestamp of the save) and
`total_count` (number of entries), and whose `products` map carries, per id,
an object with exactly the fields `id`, `title`, `price`, `url`, `image_url`,
`added_at`, `last_seen`. -/
theorem snapshot_json_format (store : Storage) (now : Int) (disk : Disk) :
    save_to_file disk (snapshot_json store now) .ok
      = .ok ⟨some (.json (snapshot_json store now)), none⟩
  ∧ (snapshot_json store now).keys = ["products", "last_updated", "total_count"]
  ∧ Json.lookupKey "last_updated" (snapshot_json store now)
      = some (.str (iso_render now))
  ∧ Json.lookupKey "total_count" (snapshot_json store now) = some (.num store.length)
  ∧ Json.lookupKey "products" (snapshot_json store now)
      = some (.obj (store.map (fun pe => (pe.1, entry_json pe.2))))
  ∧ ∀ e : StoredProduct,
      (entry_json e).keys
        = ["id", "title", "price", "url", "image_url", "added_at", "last_seen"] := by
  refine ⟨?_, rfl, rfl, rfl, rfl, fun e => rfl⟩
  unfold save_to_file
  cases disk.orig <;> rfl

/-- Witness for the amended C4 at a concrete store. -/
theorem snapshot_json_format_witness :
    (snapshot_json [("1", mkEntry ⟨"1", "t", 1, "u", "img"⟩ 0)] 5).keys
      = ["products", "last_updated", "total_count"]
  ∧ (entry_json (mkEntry ⟨"1", "t", 1, "u", "img"⟩ 0)).keys
      = ["id", "title", "price", "url", "image_url", "added_at", "last_seen"] :=
  ⟨(snapshot_json_format [("1", mkEntry ⟨"1", "t", 1, "u", "img"⟩ 0)] 5 ⟨none, none⟩).2.1,
   (snapshot_json_format [] 0 ⟨none, none⟩).2.2.2.2.2 (mkEntry ⟨"1", "t", 1, "u", "img"⟩ 0)⟩

/-- The state of the backing file as `_load_existing_products` finds it:
absent, unreadable (`open` raises), unparseable (`json.load` raises), or
parsed JSON. -/
inductive FileState where
  | absent
  | unreadable
  | malformed
  | valid (j : Json)

/-- Embeds `ProductStorage._load_existing_products` (src/product_storage.py
lines 24-38), returning the value `self.products` ends up with.  Every branch
is total because the whole body sits in `try/except Exception`: an existing
file that cannot be read or parsed, a parsed non-object (`data.get` raises
`AttributeError`), and even a failing `save_to_file` inside
`_create_empty_storage` on the absent path all land in the handler, which
sets `self.products = {}`; an object without a `products` key yields
`data.get('products', {}) = {}`. -/
def load_existing_products : FileState → Json
  | .absent => .obj []
  | .unreadable => .obj []
  | .malformed => .obj []
  | .valid (.obj fields) => (List.lookup "products" fields).getD (.obj [])
  | .valid (.str _) => .obj []
  | .valid (.num _) => .obj []
  | .valid (.arr _) => .obj []
  | .valid .null => .obj []

/-- C7.  Construction never propagates a load error (the model's loader is a
total function): the map becomes the file's `products` value when the file
parses to an object carrying one, and the empty map in every listed failure
state (absent file, unreadable file, malformed JSON, object without a
`products` key). -/
theorem load_existing_products_spec (fs : FileState) :
    (∀ fields m, fs = .valid (.obj fields) → List.lookup "products" fields = some m →
      load_existing_products fs = m)
  ∧ (∀ fields, fs = .valid (.obj fields) → List.lookup "products" fields = none →
      load_existing_products fs = .obj [])
  ∧ load_existing_products .absent = .obj []
  ∧ load_existing_products .unreadable = .obj []
  ∧ load_existing_products .malformed = .obj [] := by
  refine ⟨?_, ?_, rfl, rfl, rfl⟩
  · intro fields m hfs hlook
    subst hfs
    change (List.lookup "products" fields).getD (Json.obj []) = m
    rw [hlook]
    rfl
  · intro fields hfs hlook
    subst hfs
    change (List.lookup "products" fields).getD (Json.obj []) = Json.obj []
    rw [hlook]
    rfl

/-- Witness for C7: a snapshot that parses to an object with a `products` map
loads exactly that map; one missing the key loads empty. -/
theorem load_existing_products_spec_witness :
    load_existing_products
        (.valid (.obj [("products", .obj [("1", entry_json (mkEntry ⟨"1", "t", 1, "u", "i"⟩ 0))]),
                       ("last_updated", .str "x"), ("total_count", .num 1)]))
      = .obj [("1", entry_json (mkEntry ⟨"1", "t", 1, "u", "i"⟩ 0))]
  ∧ load_existing_products (.valid (.obj [("last_updated", .str "x")])) = .obj [] := by
  constructor
  · exact (load_existing_products_spec _).1
      [("products", .obj [("1", entry_json (mkEntry ⟨"1", "t", 1, "u", "i"⟩ 0))]),
       ("last_updated", .str "x"), ("total_count", .num 1)]
      (.obj [("1", entry_json (mkEntry ⟨"1", "t", 1, "u", "i"⟩ 0))]) rfl rfl
  · exact (load_existing_products_spec _).2.1 [("last_updated", .str "x")] rfl rfl

/-- An RGB pixel grid as `np.array(img)` yields it: height, width, and a
pixel function giving the (R, G, B) triple at row `h`, column `w`.  Channel
values are exact rationals; numpy's float arithmetic is modelled exactly. -/
structure RGBImage where
  height : Nat
  width : Nat
  px : Nat → Nat → ℚ × ℚ × ℚ

/-- Mean of a list of rationals (`np.mean`); `0` on the empty list, as the
running code never reaches that case without raising first. -/
def list_mean (l : List ℚ) : ℚ := l.sum / l.length

/-- Population variance of a list of rationals (what `np.std` squares to and
`np.var` returns). -/
def list_var (l : List ℚ) : ℚ :=
  ((l.map (fun x => (x - list_mean l) ^ 2)).sum) / l.length

/-- The border band width of `_calculate_background_ratio`:
`max(1, min(width // 10, height // 10, 20))`. -/
def border_width (img : RGBImage) : Nat :=
  max 1 (min (min (img.width / 10) (img.height / 10)) 20)

/-- Border pixel sample of `_calculate_background_ratio`
(src/image_filter.py lines 83-95), in the loop order of the code: top/bottom
bands over the full width, then left/right bands over the remaining rows
(`range(border_width, height - border_width)`). -/
def border_pixels (img : RGBImage) : List (ℚ × ℚ × ℚ) :=
  ((List.range img.width).flatMap fun w =>
    (List.range (border_width img)).flatMap fun h =>
      [img.px h w, img.px (img.height - 1 - h) w])
  ++ ((List.range' (border_width img)
        (img.height - border_width img - border_width img)).flatMap fun h =>
      (List.range (border_width img)).flatMap fun w =>
        [img.px h w, img.px h (img.width - 1 - w)])

/-- Per-channel mean of the border sample: `np.mean(border_pixels, axis=0)`. -/
def border_color (img : RGBImage) : ℚ × ℚ × ℚ :=
  (list_mean ((border_pixels img).map (·.1)),
   list_mean ((border_pixels img).map (·.2.1)),
   list_mean ((border_pixels img).map (·.2.2)))

/-- The code's `avg_variance`: the mean of the three per-channel `np.std`
values of the border sample (each std the square root of the population
variance). -/
noncomputable def avg_variance (img : RGBImage) : ℝ :=
  (Real.sqrt (list_var ((border_pixels img).map (·.1)))
   + Real.sqrt (list_var ((border_pixels img).map (·.2.1)))
   + Real.sqrt (list_var ((border_pixels img).map (·.2.2)))) / 3

/-- The code's `is_solid_background`: `avg_variance < 20`. -/
noncomputable def is_solid_background (img : RGBImage) : Prop :=
  avg_variance img < 20

/-- Squared euclidean RGB distance; the code's comparison
`np.linalg.norm(image - border_color, axis=2) < 30` is equivalent to
`dist_sq < 900` since both sides are non-negative. -/
def dist_sq (p q : ℚ × ℚ × ℚ) : ℚ :=
  (p.1 - q.1) ^ 2 + (p.2.1 - q.2.1) ^ 2 + (p.2.2 - q.2.2) ^ 2

/-- All pixels of the image, row-major. -/
def all_pixels (img : RGBImage) : List (ℚ × ℚ × ℚ) :=
  (List.range img.height).flatMap fun h =>
    (List.range img.width).map fun w => img.px h w

/-- The code's `background_pixels`: how many pixels sit within color distance
30 of the border color. -/
def background_pixels (img : RGBImage) : Nat :=
  (all_pixels img).countP (fun p => decide (dist_sq p (border_color img) < 900))

/-- The measured `background_ratio = background_pixels / total_pixels` before
the clamp. -/
def measured_ratio (img : RGBImage) : ℚ :=
  (background_pixels img : ℚ) / ((img.height : ℚ) * (img.width : ℚ))

open Classical in
/-- The value `_calculate_background_ratio` returns on a decoded 3-channel
image (src/image_filter.py lines 107-121): the measured ratio, clamped up to
`0.1` when the border is solid and the measured ratio fell below `0.1`. -/
noncomputable def background_ratio (img : RGBImage) : ℝ :=
  if is_solid_background img ∧ measured_ratio img < 1 / 10 then (1 / 10 : ℝ)
  else ((measured_ratio img : ℚ) : ℝ)

/-- The code's `_has_solid_color_background`: `False` when the feature is
disabled, otherwise `background_ratio > max_solid_color_ratio`. -/
noncomputable def has_solid_color_background (enabled : Bool) (max_solid_color_ratio : ℚ)
    (img : RGBImage) : Prop :=
  enabled = true ∧ background_ratio img > (max_solid_color_ratio : ℝ)

/-- Luma channel of `_is_low_quality`:
`np.dot(image[..., :3], [0.2989, 0.5870, 0.1140])`. -/
def luma (img : RGBImage) (h w : Nat) : ℚ :=
  (2989 / 10000) * (img.px h w).1 + (5870 / 10000) * (img.px h w).2.1
    + (1140 / 10000) * (img.px h w).2.2

/-- Row-direction `np.gradient` of the luma plane: one-sided differences at
the first and last row, central differences inside. -/
def grad_rows (img : RGBImage) (h w : Nat) : ℚ :=
  if h = 0 then luma img 1 w - luma img 0 w
  else if h = img.height - 1 then luma img h w - luma img (h - 1) w
  else (luma img (h + 1) w - luma img (h - 1) w) / 2

/-- Column-direction `np.gradient` of the luma plane. -/
def grad_cols (img : RGBImage) (h w : Nat) : ℚ :=
  if w = 0 then luma img h 1 - luma img h 0
  else if w = img.width - 1 then luma img h w - luma img h (w - 1)
  else (luma img h (w + 1) - luma img h (w - 1)) / 2

/-- The code's `laplacian` map: sum of the absolute row and column
gradients. -/
def lap_value (img : RGBImage) (h w : Nat) : ℚ :=
  |grad_rows img h w| + |grad_cols img h w|

/-- All laplacian values, row-major, for the variance that defines
sharpness. -/
def lap_values (img : RGBImage) : List ℚ :=
  (List.range img.height).flatMap fun h =>
    (List.range img.width).map fun w => lap_value img h w

/-- The code's `sharpness = laplacian.var()`. -/
def sharpness (img : RGBImage) : ℚ := list_var (lap_values img)

/-- Embeds `ImageFilter._is_low_quality` (src/image_filter.py lines 127-158):
reject below 100 pixels in either dimension, else reject when the laplacian
variance is under the hardcoded threshold 1000. -/
def is_low_quality (img : RGBImage) : Bool :=
  if img.height < 100 ∨ img.width < 100 then true
  else decide (sharpness img < 1000)

/-- What became of `requests.get` + `Image.open` for a given URL: network
failure, undecodable bytes, or a decoded image. -/
inductive FetchResult where
  | net_error
  | bad_bytes
  | decoded (img : RGBImage)

/-- Embeds `ImageFilter._download_image` (src/image_filter.py lines 25-56):
an empty URL, a failed request and undecodable bytes all return `None` via
the catch-all handler; otherwise the decoded RGB array. -/
def download_image (image_url : String) (r : FetchResult) : Option RGBImage :=
  if image_url = "" then none
  else match r with
    | .net_error => none
    | .bad_bytes => none
    | .decoded img => some img

/-- Embeds `ImageFilter.filter_background` (src/image_filter.py lines
190-227) given the download's result: pass everything when disabled; pass
when the image could not be fetched/decoded; otherwise pass exactly when the
image is neither low-quality nor solid-background. -/
def filter_background (enabled : Bool) (max_solid_color_ratio : ℚ)
    (dl : Option RGBImage) : Prop :=
  match enabled, dl with
  | false, _ => True
  | true, none => True
  | true, some img =>
      is_low_quality img = false
    ∧ ¬ has_solid_color_background true max_solid_color_ratio img

/-- C8.  `accepts` fails open: with filtering disabled it passes everything,
and with filtering enabled it passes whenever the fetch or decode failed —
empty URL, unreachable URL, or undecodable bytes. -/
theorem filter_background_fail_open :
    (∀ (m : ℚ) (dl : Option RGBImage), filter_background false m dl)
  ∧ (∀ (m : ℚ) (r : FetchResult), filter_background true m (download_image "" r))
  ∧ (∀ (m : ℚ) (url : String), filter_background true m (download_image url .net_error))
  ∧ (∀ (m : ℚ) (url : String), filter_background true m (download_image url .bad_bytes)) := by
  refine ⟨fun m dl => ?_, fun m r => ?_, fun m url => ?_, fun m url => ?_⟩
  · cases dl <;> trivial
  · unfold download_image
    split <;> trivial
  · unfold download_image
    split <;> trivial
  · unfold download_image
    split <;> trivial

theorem list_sum_of_const (l : List ℚ) (c : ℚ) (h : ∀ x ∈ l, x = c) :
    l.sum = l.length * c := by
  induction l with
  | nil => simp
  | cons a t ih =>
    simp only [List.sum_cons, List.length_cons]
    rw [h a (List.mem_cons_self a t), ih (fun x hx => h x (List.mem_cons_of_mem a hx))]
    push_cast
    ring

theorem list_var_of_const (l : List ℚ) (c : ℚ) (h : ∀ x ∈ l, x = c) :
    list_var l = 0 := by
  cases hl : l with
  | nil => simp [list_var, list_mean]
  | cons a t =>
    subst hl
    have hmean : list_mean (a :: t) = c := by
      have hlen : (((a :: t).length : ℚ)) ≠ 0 := by
        simp only [List.length_cons, Nat.cast_succ]
        positivity
      unfold list_mean
      rw [list_sum_of_const (a :: t) c h]
      rw [mul_comm, mul_div_assoc, div_self hlen, mul_one]
    unfold list_var
    rw [hmean]
    rw [List.sum_eq_zero]
    · simp
    · intro y hy
      obtain ⟨x, hx, rfl⟩ := List.mem_map.mp hy
      rw [h x hx]
      ring

/-- C9.  The clamp rule and its consequence: on any decoded RGB image whose
border is solid (`avg_variance < 20`) and whose measured ratio is under
`0.1`, the returned `background_ratio` is exactly `0.1`; a uniform border
always gives `background_ratio ≥ 0.1` and hence a solid-background verdict at
threshold `max_solid_color_ratio = 0.05`; and with filtering enabled the
verdict holds exactly when `background_ratio` exceeds the threshold. -/
theorem background_ratio_clamp (img : RGBImage) :
    (is_solid_background img → measured_ratio img < 1 / 10 →
      background_ratio img = 1 / 10)
  ∧ ((∃ c, ∀ p ∈ border_pixels img, p = c) →
      background_ratio img ≥ 1 / 10
      ∧ has_solid_color_background true (1 / 20) img)
  ∧ (∀ m : ℚ, has_solid_color_background true m img ↔ background_ratio img > (m : ℝ)) := by
  have hclamp : ∀ (h1 : is_solid_background img), measured_ratio img < 1 / 10 →
      background_ratio img = 1 / 10 := by
    intro h1 h2
    unfold background_ratio
    rw [if_pos ⟨h1, h2⟩]
  refine ⟨hclamp, ?_, ?_⟩
  · intro huni
    obtain ⟨c, hc⟩ := huni
    have hv1 : list_var ((border_pixels img).map (·.1)) = 0 := by
      refine list_var_of_const _ c.1 ?_
      intro x hx
      obtain ⟨p, hp, rfl⟩ := List.mem_map.mp hx
      rw [hc p hp]
    have hv2 : list_var ((border_pixels img).map (·.2.1)) = 0 := by
      refine list_var_of_const _ c.2.1 ?_
      intro x hx
      obtain ⟨p, hp, rfl⟩ := List.mem_map.mp hx
      rw [hc p hp]
    have hv3 : list_var ((border_pixels img).map (·.2.2)) = 0 := by
      refine list_var_of_const _ c.2.2 ?_
      intro x hx
      obtain ⟨p, hp, rfl⟩ := List.mem_map.mp hx
      rw [hc p hp]
    have hsolid : is_solid_background img := by
      unfold is_solid_background avg_variance
      rw [hv1, hv2, hv3]
      norm_num
    have hge : background_ratio img ≥ 1 / 10 := by
      unfold background_ratio
      by_cases hm : measured_ratio img < 1 / 10
      · rw [if_pos ⟨hsolid, hm⟩]
      · rw [if_neg (fun hcon => hm hcon.2), ge_iff_le]
        have h10 : (1 / 10 : ℚ) ≤ measured_ratio img := le_of_not_lt hm
        have h10' : ((1 / 10 : ℚ) : ℝ) ≤ ((measured_ratio img : ℚ) : ℝ) := by
          exact_mod_cast h10
        simpa using h10'
    refine ⟨hge, rfl, ?_⟩
    have : ((1 / 20 : ℚ) : ℝ) < 1 / 10 := by norm_num
    linarith
  · intro m
    constructor
    · intro h
      exact h.2
    · intro h
      exact ⟨rfl, h⟩

/-- A 3-by-3 image whose border has four black and four grey-39 pixels
(per-channel std exactly 19.5, so the border counts as solid) while every
pixel is farther than 30 from the border mean (measured ratio 0): the clamp
case of C9. -/
def imgA : RGBImage where
  height := 3
  width := 3
  px := fun h w =>
    if h = 1 ∧ w = 1 then (200, 200, 200)
    else if (h = 0 ∧ w = 0) ∨ (h = 2 ∧ w = 1) ∨ (h = 0 ∧ w = 2) ∨ (h = 1 ∧ w = 2) then
      (0, 0, 0)
    else (39, 39, 39)

/-- A uniform black 2-by-2 image: the uniform-border case of C9. -/
def imgB : RGBImage where
  height := 2
  width := 2
  px := fun _ _ => (0, 0, 0)

/-- Witness for C9 at concrete images: `imgA` (solid border, measured ratio
under 0.1) gets clamped to exactly 0.1; uniform `imgB` scores at least 0.1
and is classified solid at threshold 0.05. -/
theorem background_ratio_clamp_witness :
    background_ratio imgA = 1 / 10
  ∧ background_ratio imgB ≥ 1 / 10
  ∧ has_solid_color_background true (1 / 20) imgB := by
  have hB := (background_ratio_clamp imgB).2.1 ⟨(0, 0, 0), by decide⟩
  refine ⟨?_, hB.1, hB.2⟩
  have hbp : border_pixels imgA
      = [(0, 0, 0), (39, 39, 39), (39, 39, 39), (0, 0, 0),
         (0, 0, 0), (39, 39, 39), (39, 39, 39), (0, 0, 0)] := rfl
  have hv1 : list_var ((border_pixels imgA).map (·.1)) = 1521 / 4 := by
    rw [hbp]
    norm_num [list_var, list_mean]
  have hv2 : list_var ((border_pixels imgA).map (·.2.1)) = 1521 / 4 := by
    rw [hbp]
    norm_num [list_var, list_mean]
  have hv3 : list_var ((border_pixels imgA).map (·.2.2)) = 1521 / 4 := by
    rw [hbp]
    norm_num [list_var, list_mean]
  have hsqrt : Real.sqrt ((1521 / 4 : ℚ) : ℝ) = 39 / 2 := by
    rw [show ((1521 / 4 : ℚ) : ℝ) = (39 / 2 : ℝ) ^ 2 by norm_num]
    exact Real.sqrt_sq (by norm_num)
  have hsolid : is_solid_background imgA := by
    unfold is_solid_background avg_variance
    rw [hv1, hv2, hv3, hsqrt]
    norm_num
  have hbc : border_color imgA = (39 / 2, 39 / 2, 39 / 2) := by
    rw [border_color, hbp]
    norm_num [list_mean]
  have hbg : background_pixels imgA = 0 := by
    rw [background_pixels, hbc]
    rw [show all_pixels imgA
      = [(0, 0, 0), (39, 39, 39), (0, 0, 0), (39, 39, 39), (200, 200, 200),
         (0, 0, 0), (39, 39, 39), (0, 0, 0), (39, 39, 39)] from rfl]
    simp only [List.countP_cons, List.countP_nil, dist_sq, decide_eq_true_eq]
    norm_num
  have hm : measured_ratio imgA < 1 / 10 := by
    rw [measured_ratio, hbg]
    norm_num
  exact (background_ratio_clamp imgA).1 hsolid hm

end MercariSpy
